import Mathlib

/-!
Shallow embedding of `src/script_robot.py`, a keyboard/joystick robot
remote-control client: an input mixer turning key state into motor-power
commands, a throttle adjusted by discrete events, and a network loop that
streams commands, retries failed connections, and sends a final stop
command on teardown.

Python floats are modelled as rationals (the literal `0.7071` becomes
`7071/10000`), Python `int()` (truncation toward zero) as `pyTrunc`,
and the imperative loops as explicit state-passing functions that also
record a trace of observable actions (connect attempts, wire sends,
renders, cadence waits, the final stop-send attempt, socket close,
retry sleeps).
-/

/-- `MAX_MOTOR_POWER = 255` (line 14 of the source). -/
def MAX_MOTOR_POWER : ℤ := 255

/-- `speed_step = 0.1` (line 25 of the source). -/
def speed_step : ℚ := 1/10

/-- Python `int()` applied to a float: truncation toward zero. -/
def pyTrunc (q : ℚ) : ℤ := if 0 ≤ q then ⌊q⌋ else ⌈q⌉

/-- The command dictionary built at lines 66-72, and the stop command
literal of line 78: four motor powers and an `active` flag. -/
structure MotorCommand where
  front_left : ℤ
  back_left : ℤ
  front_right : ℤ
  back_right : ℤ
  active : Bool
deriving DecidableEq, Repr

/-- `stop_command` (line 78): `active = False`, all powers `0`. -/
def stop_command : MotorCommand :=
  { front_left := 0, back_left := 0, front_right := 0, back_right := 0,
    active := false }

/-- The pygame key snapshot consumed by the mixer: whether each of the
four directional keys W/S/A/D is held (lines 33-36). -/
structure Keys where
  w : Bool
  s : Bool
  a : Bool
  d : Bool
deriving DecidableEq, Repr

/-- `get_keyboard_inputs_from_pygame(keys, current_speed)` (lines 28-73):
directional intent from held keys, diagonal scaling by `0.7071`,
tank-style mixing, normalization when the raw magnitude exceeds 1,
scaling by `current_speed * MAX_MOTOR_POWER`, truncation to `int`. -/
def get_keyboard_inputs_from_pygame (keys : Keys) (current_speed : ℚ) :
    MotorCommand :=
  let y_input : ℚ := (if keys.w then 1 else 0) + (if keys.s then -1 else 0)
  let x_input : ℚ := (if keys.a then -1 else 0) + (if keys.d then 1 else 0)
  let x1 : ℚ := if x_input ≠ 0 ∧ y_input ≠ 0 then x_input * (7071/10000) else x_input
  let y1 : ℚ := if x_input ≠ 0 ∧ y_input ≠ 0 then y_input * (7071/10000) else y_input
  let left_power_raw : ℚ := y1 - x1
  let right_power_raw : ℚ := y1 + x1
  let max_raw_power : ℚ := max |left_power_raw| |right_power_raw|
  let l2 : ℚ := if max_raw_power > 1 then left_power_raw / max_raw_power else left_power_raw
  let r2 : ℚ := if max_raw_power > 1 then right_power_raw / max_raw_power else right_power_raw
  let left_final_power : ℚ := l2 * current_speed * (MAX_MOTOR_POWER : ℚ)
  let right_final_power : ℚ := r2 * current_speed * (MAX_MOTOR_POWER : ℚ)
  { front_left := pyTrunc left_final_power,
    back_left := pyTrunc left_final_power,
    front_right := pyTrunc right_final_power,
    back_right := pyTrunc right_final_power,
    active := true }

/-! ## The network loop (`run_network_client`, lines 75-186)

The imperative loop is embedded as state-passing functions.  The mutable
variables `running`, `current_speed` and `is_sending` form `LoopState`.
The environment (pygame events, key snapshots, socket behavior) is an
explicit input.  Each function also returns the list of observable
`Act`s it performs, in order. -/

/-- The pygame events the loop reacts to (lines 100-119).  `clickAt b inside`
is a `MOUSEBUTTONDOWN` with button `b` whose position is (`inside`) within
the start/stop button rectangle; `kUp`/`kDown` are `KEYDOWN` of the
arrow keys adjusting the speed; `kOther` is any event the loop ignores. -/
inductive PyEvent where
  | quit
  | clickAt (button : ℕ) (inside : Bool)
  | kUp
  | kDown
  | kEscape
  | kSpace
  | kOther
deriving DecidableEq, Repr

/-- The mutable state of `run_network_client`: the module-level `running`
and `current_speed` (lines 24-26) and the local `is_sending` (line 87). -/
structure LoopState where
  running : Bool
  current_speed : ℚ
  is_sending : Bool
deriving DecidableEq, Repr

/-- One step of the event-handling `for` loop (lines 100-119). -/
def processEvent (st : LoopState) : PyEvent → LoopState
  | .quit => { st with running := false }
  | .clickAt b inside =>
      if b = 1 ∧ inside = true then { st with is_sending := !st.is_sending }
      else st
  | .kUp => { st with current_speed := min 1 (st.current_speed + speed_step) }
  | .kDown => { st with current_speed := max 0 (st.current_speed - speed_step) }
  | .kEscape => { st with running := false }
  | .kSpace => { st with is_sending := false }
  | .kOther => st

/-- The whole event-handling `for` loop over `pygame.event.get()`. -/
def processEvents (st : LoopState) (es : List PyEvent) : LoopState :=
  es.foldl processEvent st

/-- Classification of the exceptions the loop catches: the tuple
`(socket.timeout, ConnectionRefusedError, ConnectionResetError,
BrokenPipeError)` of line 167 is `transport`; any other exception
(line 169) is `fatal`. -/
inductive ExcKind where
  | transport
  | fatal
deriving DecidableEq, Repr

/-- The environment of one iteration of the inner `while running` loop
(lines 99-165): the pending pygame events, the key snapshot from
`pygame.key.get_pressed()`, and whether `client_socket.sendall` raises
(`some k`) or succeeds (`none`). -/
structure TickInput where
  events : List PyEvent
  keys : Keys
  sendResult : Option ExcKind
deriving DecidableEq, Repr

/-- Observable actions of the loop, in program order:
`connectAttempt` = the `connect` call (line 95); `wireSend c` = command
`c` actually placed on the wire by a successful `sendall` (line 130 or
the final send at line 176); `render` = drawing plus `display.flip`
(lines 133-164); `tickWait` = `clock.tick(30)` (line 165);
`finalStopSend ok` = the teardown attempt to send `stop_command`
(line 176), `ok` recording whether it succeeded; `closeSocket` =
`client_socket.close()` (line 180); `sleepRetry d` = `time.sleep(d)`
before a reconnect attempt (line 183). -/
inductive Act where
  | connectAttempt
  | wireSend (c : MotorCommand)
  | render
  | tickWait
  | finalStopSend (ok : Bool)
  | closeSocket
  | sleepRetry (d : ℚ)
deriving DecidableEq, Repr

/-- How one iteration of the inner loop ends: `normal` (fall through to
the next `while running` test), or an exception from `sendall`. -/
inductive TickOutcome where
  | normal
  | raised (k : ExcKind)
deriving DecidableEq, Repr

/-- One iteration of the inner `while running` loop (lines 100-165):
handle events, snapshot keys, build the command (`get_keyboard_inputs_from_pygame`
when `is_sending`, else the `stop_command` literal, lines 123-128), send
it (line 130), then draw and wait for the next tick.  If `sendall`
raises, nothing reaches the wire and the drawing and cadence wait are
skipped. -/
def runTick (st : LoopState) (inp : TickInput) :
    LoopState × List Act × TickOutcome :=
  let st1 := processEvents st inp.events
  let cmd := if st1.is_sending
    then get_keyboard_inputs_from_pygame inp.keys st1.current_speed
    else stop_command
  match inp.sendResult with
  | some k => (st1, [], .raised k)
  | none => (st1, [.wireSend cmd, .render, .tickWait], .normal)

/-- How the inner `while running` loop ends: `exited` (the `running`
test failed), `raised k` (an exception escaped a tick), or `fuelOut`
(the supplied list of tick inputs was exhausted first — a model
artifact; the real loop would keep ticking). -/
inductive InnerResult where
  | exited
  | raised (k : ExcKind)
  | fuelOut
deriving DecidableEq, Repr

/-- The inner `while running` loop (lines 99-165), driven by a finite
list of tick inputs. -/
def runInner (st : LoopState) : List TickInput → LoopState × List Act × InnerResult
  | [] => (st, [], .fuelOut)
  | inp :: rest =>
      if st.running then
        let r := runTick st inp
        match r.2.2 with
        | .raised k => (r.1, r.2.1, .raised k)
        | .normal =>
            let r2 := runInner r.1 rest
            (r2.1, r.2.1 ++ r2.2.1, r2.2.2)
      else (st, [], .exited)

/-- The `finally` block's socket cleanup (lines 173-180), run whenever
`client_socket` is not `None`: one attempt to send `stop_command`
(line 176) — recorded as `finalStopSend ok`, with a `wireSend` when the
attempt succeeded — then `close()`, reached whether or not the send
raised. -/
def teardown (finalOk : Bool) : List Act :=
  (if finalOk then [.finalStopSend true, .wireSend stop_command]
   else [.finalStopSend false]) ++ [.closeSocket]

/-- The environment of one iteration of the outer `while running` loop:
whether `connect` (line 95) succeeds, the classification of its
exception when it fails, the tick inputs for the inner loop, and
whether the teardown `sendall` of `stop_command` succeeds.  When the
connect failed the socket is not connected, so that final `sendall`
always raises (`OSError`); the model forces it to fail in that case. -/
structure SessionInput where
  connectOk : Bool
  connectExc : ExcKind
  ticks : List TickInput
  finalStopOk : Bool
deriving DecidableEq, Repr

/-- One iteration of the outer `while running` loop (lines 89-183): a
connect attempt, then — on success — the inner loop, the `except`
clauses' effect on `running` (line 167 leaves it, line 171 clears it),
then the `finally` block: socket teardown and, when still `running`,
`time.sleep(5)` (line 183). -/
def runSession (st : LoopState) (sin : SessionInput) : LoopState × List Act :=
  if sin.connectOk then
    let r := runInner st sin.ticks
    let st2 := match r.2.2 with
      | .raised .fatal => { r.1 with running := false }
      | _ => r.1
    (st2, Act.connectAttempt :: (r.2.1 ++ teardown sin.finalStopOk ++
      (if st2.running then [.sleepRetry 5] else [])))
  else
    let st2 := match sin.connectExc with
      | .fatal => { st with running := false }
      | .transport => st
    (st2, Act.connectAttempt :: (teardown false ++
      (if st2.running then [.sleepRetry 5] else [])))

/-- The outer `while running` loop, driven by a finite list of session
environments.  `run_network_client` starts it with
`running = True`, `current_speed = 0.5`, `is_sending = False`. -/
def run_network_client (st : LoopState) : List SessionInput → LoopState × List Act
  | [] => (st, [])
  | sin :: rest =>
      if st.running then
        let r := runSession st sin
        let r2 := run_network_client r.1 rest
        (r2.1, r.2 ++ r2.2)
      else (st, [])

/-- The initial loop state (lines 24-26 and 87). -/
def initialState : LoopState :=
  { running := true, current_speed := 1/2, is_sending := false }

/-! ## Trace observation helpers -/

/-- Is this action a connect attempt? -/
def isConnect : Act → Bool
  | .connectAttempt => true
  | _ => false

/-- Is this action a successful wire send? -/
def isWire : Act → Bool
  | .wireSend _ => true
  | _ => false

/-- Is this action the teardown stop-send attempt? -/
def isFinalStop : Act → Bool
  | .finalStopSend _ => true
  | _ => false

/-- Is this action the socket close? -/
def isClose : Act → Bool
  | .closeSocket => true
  | _ => false

/-- Is this action one emitted by a tick of the inner loop
(wire send, render, cadence wait)? -/
def isTickAct : Act → Bool
  | .wireSend _ => true
  | .render => true
  | .tickWait => true
  | _ => false

/-- Is this action a render? -/
def isRender : Act → Bool
  | .render => true
  | _ => false

/-- Is this action a cadence wait? -/
def isWait : Act → Bool
  | .tickWait => true
  | _ => false

/-- The times, measured only by accumulated `sleepRetry` durations (a
lower bound on real elapsed time), at which the connect attempts in a
trace occur. -/
def connectTimes (t : ℚ) : List Act → List ℚ
  | [] => []
  | .connectAttempt :: rest => t :: connectTimes t rest
  | .sleepRetry d :: rest => connectTimes (t + d) rest
  | _ :: rest => connectTimes t rest

/-! ## Helper lemmas -/

/-- Commands a tick can place on the wire: the `stop_command` literal or
some mixer output (lines 123-130). -/
theorem runTick_wire (st : LoopState) (inp : TickInput) (c : MotorCommand)
    (h : Act.wireSend c ∈ (runTick st inp).2.1) :
    c = stop_command ∨ ∃ k s, c = get_keyboard_inputs_from_pygame k s := by
  rcases inp with ⟨es, ks, sr⟩
  rcases sr with _ | k
  · simp only [runTick, List.mem_cons, List.not_mem_nil, or_false] at h
    rcases h with h | h | h
    · by_cases hs : (processEvents st es).is_sending = true
      · rw [hs] at h
        simp only [if_true] at h
        exact Or.inr ⟨ks, (processEvents st es).current_speed, Act.wireSend.inj h⟩
      · rw [eq_false_of_ne_true hs] at h
        simp only [Bool.false_eq_true, if_false] at h
        exact Or.inl (Act.wireSend.inj h)
    · exact absurd h (by simp)
    · exact absurd h (by simp)
  · simp [runTick] at h

/-- Same characterization for a whole inner-loop run. -/
theorem runInner_wire (inps : List TickInput) (st : LoopState) (c : MotorCommand)
    (h : Act.wireSend c ∈ (runInner st inps).2.1) :
    c = stop_command ∨ ∃ k s, c = get_keyboard_inputs_from_pygame k s := by
  induction inps generalizing st with
  | nil => simp [runInner] at h
  | cons inp rest ih =>
      simp only [runInner] at h
      split at h
      · split at h
        · exact runTick_wire st inp c h
        · rcases List.mem_append.1 h with h | h
          · exact runTick_wire st inp c h
          · exact ih _ h
      · simp at h

/-- The only command teardown can place on the wire is `stop_command`. -/
theorem teardown_wire (ok : Bool) (c : MotorCommand)
    (h : Act.wireSend c ∈ teardown ok) : c = stop_command := by
  rcases ok with _ | _
  · simp [teardown] at h
  · simp [teardown] at h
    exact h

/-- Commands a whole session can place on the wire. -/
theorem runSession_wire (st : LoopState) (sin : SessionInput) (c : MotorCommand)
    (h : Act.wireSend c ∈ (runSession st sin).2) :
    c = stop_command ∨ ∃ k s, c = get_keyboard_inputs_from_pygame k s := by
  simp only [runSession] at h
  split at h
  · simp only [List.mem_cons, List.mem_append] at h
    rcases h with h | (h | h) | h
    · exact absurd h (by simp)
    · exact runInner_wire _ _ _ h
    · exact Or.inl (teardown_wire _ _ h)
    · split at h <;> simp at h
  · simp only [List.mem_cons, List.mem_append] at h
    rcases h with h | h | h
    · exact absurd h (by simp)
    · exact Or.inl (teardown_wire _ _ h)
    · split at h <;> simp at h

/-- Commands the whole client run can place on the wire. -/
theorem run_network_client_wire (sins : List SessionInput) (st : LoopState)
    (c : MotorCommand) (h : Act.wireSend c ∈ (run_network_client st sins).2) :
    c = stop_command ∨ ∃ k s, c = get_keyboard_inputs_from_pygame k s := by
  induction sins generalizing st with
  | nil => simp [run_network_client] at h
  | cons sin rest ih =>
      simp only [run_network_client] at h
      split at h
      · rcases List.mem_append.1 h with h | h
        · exact runSession_wire st sin c h
        · exact ih _ h
      · simp at h

/-- The mixer always reports `active = True` (line 71). -/
theorem get_keyboard_inputs_active (k : Keys) (s : ℚ) :
    (get_keyboard_inputs_from_pygame k s).active = true := rfl

/-- `pyTrunc` agrees with the floor on nonnegative rationals. -/
theorem pyTrunc_of_nonneg {q : ℚ} (h : 0 ≤ q) : pyTrunc q = ⌊q⌋ := if_pos h

/-- A tick emits only wire sends, renders and cadence waits. -/
theorem runTick_acts (st : LoopState) (inp : TickInput) (a : Act)
    (h : a ∈ (runTick st inp).2.1) : isTickAct a = true := by
  rcases inp with ⟨es, ks, sr⟩
  rcases sr with _ | k
  · simp only [runTick, List.mem_cons, List.not_mem_nil, or_false] at h
    rcases h with rfl | rfl | rfl <;> rfl
  · simp [runTick] at h

/-- The whole inner loop emits only wire sends, renders and cadence waits. -/
theorem runInner_acts (inps : List TickInput) (st : LoopState) (a : Act)
    (h : a ∈ (runInner st inps).2.1) : isTickAct a = true := by
  induction inps generalizing st with
  | nil => simp [runInner] at h
  | cons inp rest ih =>
      simp only [runInner] at h
      split at h
      · split at h
        · exact runTick_acts st inp a h
        · rcases List.mem_append.1 h with h | h
          · exact runTick_acts st inp a h
          · exact ih _ h
      · simp at h

/-- Predicates false on all tick actions count zero in inner-loop traces. -/
theorem runInner_countP_zero (p : Act → Bool)
    (hp : ∀ a, isTickAct a = true → p a = false)
    (inps : List TickInput) (st : LoopState) :
    (runInner st inps).2.1.countP p = 0 :=
  List.countP_eq_zero.2 fun a ha => by
    simp [hp a (runInner_acts inps st a ha)]

/-- A state with `running = false` makes the inner loop exit at once. -/
theorem runInner_not_running (st : LoopState) (inps : List TickInput)
    (h : st.running = false) :
    (runInner st inps).1 = st ∧ (runInner st inps).2.1 = [] := by
  cases inps with
  | nil => exact ⟨rfl, rfl⟩
  | cons inp rest => simp [runInner, h]

/-- A state with `running = false` makes the outer loop exit at once. -/
theorem run_network_client_not_running (st : LoopState)
    (sins : List SessionInput) (h : st.running = false) :
    run_network_client st sins = (st, []) := by
  cases sins with
  | nil => rfl
  | cons sin rest => simp [run_network_client, h]

/-- A tick's resulting state is the event-processed state, whatever the
send did. -/
theorem runTick_state (st : LoopState) (inp : TickInput) :
    (runTick st inp).1 = processEvents st inp.events := by
  rcases inp with ⟨es, ks, sr⟩
  rcases sr with _ | k <;> rfl

/-- A connect attempt that fails with a transport error while `running`:
the state is unchanged and the trace is attempt, failed final-stop
attempt, close, retry sleep. -/
theorem runSession_failed_transport (st : LoopState) (sin : SessionInput)
    (hr : st.running = true) (hc : sin.connectOk = false)
    (hk : sin.connectExc = .transport) :
    runSession st sin =
      (st, [.connectAttempt, .finalStopSend false, .closeSocket,
            .sleepRetry 5]) := by
  simp [runSession, hc, hk, teardown, hr]

/-- A tick action is not a connect attempt. -/
theorem isTickAct_not_connect (a : Act) (h : isTickAct a = true) :
    isConnect a = false := by
  cases a <;> first | rfl | simp [isTickAct] at h

/-- A tick action is not a final stop-send attempt. -/
theorem isTickAct_not_finalStop (a : Act) (h : isTickAct a = true) :
    isFinalStop a = false := by
  cases a <;> first | rfl | simp [isTickAct] at h

/-- A tick action is not a socket close. -/
theorem isTickAct_not_close (a : Act) (h : isTickAct a = true) :
    isClose a = false := by
  cases a <;> first | rfl | simp [isTickAct] at h

/-- Teardown actions contain no connect attempt. -/
theorem teardown_no_connect (ok : Bool) (a : Act) (h : a ∈ teardown ok) :
    isConnect a = false := by
  cases ok
  · simp [teardown] at h
    rcases h with rfl | rfl <;> rfl
  · simp [teardown] at h
    rcases h with rfl | rfl | rfl <;> rfl

/-- `connectTimes` skips a block with neither connects nor sleeps. -/
theorem connectTimes_append_clean (l1 l2 : List Act) (t : ℚ)
    (h : ∀ a ∈ l1, isTickAct a = true) :
    connectTimes t (l1 ++ l2) = connectTimes t l2 := by
  induction l1 generalizing t with
  | nil => rfl
  | cons a rest ih =>
      have ha := h a (List.mem_cons_self a rest)
      have hrest : ∀ b ∈ rest, isTickAct b = true :=
        fun b hb => h b (List.mem_cons_of_mem a hb)
      cases a with
      | wireSend c => simpa [connectTimes] using ih t hrest
      | render => simpa [connectTimes] using ih t hrest
      | tickWait => simpa [connectTimes] using ih t hrest
      | connectAttempt => simp [isTickAct] at ha
      | finalStopSend ok => simp [isTickAct] at ha
      | closeSocket => simp [isTickAct] at ha
      | sleepRetry d => simp [isTickAct] at ha

/-- A trace without connect attempts yields no connect times. -/
theorem connectTimes_no_connect (l : List Act) (t : ℚ)
    (h : ∀ a ∈ l, isConnect a = false) : connectTimes t l = [] := by
  induction l generalizing t with
  | nil => rfl
  | cons a rest ih =>
      have ha := h a (List.mem_cons_self a rest)
      have hrest : ∀ b ∈ rest, isConnect b = false :=
        fun b hb => h b (List.mem_cons_of_mem a hb)
      cases a with
      | connectAttempt => simp [isConnect] at ha
      | sleepRetry d => simpa [connectTimes] using ih (t + d) hrest
      | wireSend c => simpa [connectTimes] using ih t hrest
      | render => simpa [connectTimes] using ih t hrest
      | tickWait => simpa [connectTimes] using ih t hrest
      | finalStopSend ok => simpa [connectTimes] using ih t hrest
      | closeSocket => simpa [connectTimes] using ih t hrest

/-- A connected session's trace: the connect attempt followed by a tail
containing no further connect attempt. -/
theorem runSession_connected_tail (st : LoopState) (sin : SessionInput)
    (hc : sin.connectOk = true) :
    ∃ tail, (runSession st sin).2 = Act.connectAttempt :: tail ∧
      ∀ a ∈ tail, isConnect a = false := by
  simp only [runSession, hc, if_true]
  refine ⟨_, rfl, ?_⟩
  intro a ha
  rcases List.mem_append.1 ha with ha | ha
  · rcases List.mem_append.1 ha with ha | ha
    · exact isTickAct_not_connect a (runInner_acts _ _ _ ha)
    · exact teardown_no_connect _ _ ha
  · split at ha
    · simp only [List.mem_singleton] at ha
      subst ha; rfl
    · simp at ha

/-- One event step keeps the speed within `[0, 1]` (lines 108-113:
`min(1.0, …)` and `max(0.0, …)`). -/
theorem processEvent_speed_mem (st : LoopState) (e : PyEvent)
    (h0 : 0 ≤ st.current_speed) (h1 : st.current_speed ≤ 1) :
    0 ≤ (processEvent st e).current_speed ∧
      (processEvent st e).current_speed ≤ 1 := by
  cases e with
  | quit => exact ⟨h0, h1⟩
  | clickAt b inside =>
      by_cases hb : b = 1 ∧ inside = true <;>
        simp [processEvent, hb] <;> exact ⟨h0, h1⟩
  | kUp =>
      have hs : (0:ℚ) ≤ speed_step := by norm_num [speed_step]
      exact ⟨le_min (by norm_num) (by linarith), min_le_left _ _⟩
  | kDown =>
      have hs : (0:ℚ) ≤ speed_step := by norm_num [speed_step]
      exact ⟨le_max_left _ _, max_le (by norm_num) (by linarith)⟩
  | kEscape => exact ⟨h0, h1⟩
  | kSpace => exact ⟨h0, h1⟩
  | kOther => exact ⟨h0, h1⟩

/-- Any event sequence keeps the speed within `[0, 1]`. -/
theorem processEvents_speed_mem (es : List PyEvent) (st : LoopState)
    (h0 : 0 ≤ st.current_speed) (h1 : st.current_speed ≤ 1) :
    0 ≤ (processEvents st es).current_speed ∧
      (processEvents st es).current_speed ≤ 1 := by
  induction es generalizing st with
  | nil => exact ⟨h0, h1⟩
  | cons e rest ih =>
      have h := processEvent_speed_mem st e h0 h1
      exact ih (processEvent st e) h.1 h.2

/-- Teardown contains exactly one final stop-send attempt. -/
theorem teardown_countP_finalStop (ok : Bool) :
    (teardown ok).countP isFinalStop = 1 := by
  cases ok <;> rfl

/-- Teardown contains exactly one socket close. -/
theorem teardown_countP_close (ok : Bool) :
    (teardown ok).countP isClose = 1 := by
  cases ok <;> rfl

/-- Teardown starts with the stop-send attempt and closes the socket
afterwards, whether or not the attempt succeeded. -/
theorem teardown_shape (ok : Bool) :
    ∃ post, teardown ok = Act.finalStopSend ok :: post ∧
      Act.closeSocket ∈ post := by
  cases ok
  · exact ⟨[Act.closeSocket], rfl, by simp⟩
  · exact ⟨[Act.wireSend stop_command, Act.closeSocket], rfl, by simp⟩

/-- A connected session's trace is the connect attempt, the inner-loop
trace, the teardown, and possibly a retry sleep. -/
theorem runSession_connected_shape (st : LoopState) (sin : SessionInput)
    (hc : sin.connectOk = true) :
    ∃ sl, (runSession st sin).2 =
      Act.connectAttempt :: ((runInner st sin.ticks).2.1 ++
        teardown sin.finalStopOk ++ sl) := by
  simp only [runSession, hc, if_true]
  exact ⟨_, rfl⟩

/-! ## The claims -/

/-- C1: for every command placed on the wire by the program (any initial
state, any sequence of session environments), if the command's `active`
field is `false` then all four power fields are `0`.  Holds because
every wire command is either the `stop_command` literal (lines 78, 128,
176), which has all powers zero, or a mixer output, which always has
`active = True` (line 71). -/
theorem wire_stop_invariant (st : LoopState) (sins : List SessionInput)
    (c : MotorCommand)
    (h : Act.wireSend c ∈ (run_network_client st sins).2)
    (ha : c.active = false) :
    c.front_left = 0 ∧ c.back_left = 0 ∧ c.front_right = 0 ∧
      c.back_right = 0 := by
  rcases run_network_client_wire sins st c h with rfl | ⟨k, s, rfl⟩
  · exact ⟨rfl, rfl, rfl, rfl⟩
  · rw [get_keyboard_inputs_active] at ha
    exact absurd ha (by simp)

/-- Witness for C1: a concrete run (one connected session whose final
stop-send succeeds) places `stop_command` on the wire, and the theorem
yields its four zero fields. -/
theorem wire_stop_invariant_witness :
    stop_command.front_left = 0 ∧ stop_command.back_left = 0 ∧
      stop_command.front_right = 0 ∧ stop_command.back_right = 0 :=
  wire_stop_invariant initialState
    [{ connectOk := true, connectExc := .transport, ticks := [],
       finalStopOk := true }] stop_command
    (by simp [run_network_client, runSession, runInner, teardown,
          initialState]) rfl

/-- C5: with only the forward key held (intent `(0,1)`) and speed `1.0`,
the mixer produces power `255 = MAX_MOTOR_POWER` on all four motors. -/
theorem mixer_full_forward :
    get_keyboard_inputs_from_pygame ⟨true, false, false, false⟩ 1 =
      { front_left := 255, back_left := 255, front_right := 255,
        back_right := 255, active := true } := by
  norm_num [get_keyboard_inputs_from_pygame, pyTrunc, MAX_MOTOR_POWER]

/-- C7: with only the right key held (intent `(1,0)`, turn in place) and
speed `1.0`, the wheel powers have equal magnitude `255` and opposite
signs; the sign convention realized by the code (line 52-53:
`left = y - x`, `right = y + x`) is left `= -255`, right `= +255`. -/
theorem mixer_turn_in_place :
    ((get_keyboard_inputs_from_pygame ⟨false, false, false, true⟩ 1).front_left = -255 ∧
     (get_keyboard_inputs_from_pygame ⟨false, false, false, true⟩ 1).front_right = 255) ∧
    (get_keyboard_inputs_from_pygame ⟨false, false, false, true⟩ 1).front_left =
      -(get_keyboard_inputs_from_pygame ⟨false, false, false, true⟩ 1).front_right ∧
    |(get_keyboard_inputs_from_pygame ⟨false, false, false, true⟩ 1).front_left| = 255 ∧
    |(get_keyboard_inputs_from_pygame ⟨false, false, false, true⟩ 1).front_right| = 255 := by
  have h : get_keyboard_inputs_from_pygame ⟨false, false, false, true⟩ 1 =
      { front_left := -255, back_left := -255, front_right := 255,
        back_right := 255, active := true } := by
    norm_num [get_keyboard_inputs_from_pygame, pyTrunc, MAX_MOTOR_POWER,
      Int.ceil_neg]
  rw [h]
  norm_num

/-- C8: starting from the initial speed `0.5`, every sequence of input
events (in particular of speed increments and decrements) keeps the
throttle within `[0, 1]`: line 109 clamps at `1.0` with `min`, line 112
clamps at `0.0` with `max`. -/
theorem throttle_bounds (es : List PyEvent) :
    0 ≤ (processEvents initialState es).current_speed ∧
      (processEvents initialState es).current_speed ≤ 1 :=
  processEvents_speed_mem es initialState (by norm_num [initialState])
    (by norm_num [initialState])

/-- C10: for every key state and every speed, the mixer drives both
motors of a side with the same power (lines 67-70 reuse
`left_final_power` and `right_final_power`), and `active` is always
`True` (line 71). -/
theorem mixer_sides_equal_and_active (k : Keys) (s : ℚ) :
    (get_keyboard_inputs_from_pygame k s).front_left =
      (get_keyboard_inputs_from_pygame k s).back_left ∧
    (get_keyboard_inputs_from_pygame k s).front_right =
      (get_keyboard_inputs_from_pygame k s).back_right ∧
    (get_keyboard_inputs_from_pygame k s).active = true :=
  ⟨rfl, rfl, rfl⟩

/-- C2: every teardown of a session that connected (whether the inner
loop exited voluntarily or an error broke it) attempts the best-effort
stop-send exactly once, and the socket close follows the attempt even
when that final send fails (the `try`/`except` around line 176 absorbs
its failure; `close()` at line 180 is reached unconditionally). -/
theorem session_teardown_single_stop (st : LoopState) (sin : SessionInput)
    (hc : sin.connectOk = true) :
    ((runSession st sin).2.countP isFinalStop = 1) ∧
    ((runSession st sin).2.countP isClose = 1) ∧
    ∃ pre post, (runSession st sin).2 =
        pre ++ Act.finalStopSend sin.finalStopOk :: post ∧
      Act.closeSocket ∈ post := by
  have hinner : (runInner st sin.ticks).2.1.countP isFinalStop = 0 :=
    runInner_countP_zero _ isTickAct_not_finalStop _ _
  have hinnerc : (runInner st sin.ticks).2.1.countP isClose = 0 :=
    runInner_countP_zero _ isTickAct_not_close _ _
  refine ⟨?_, ?_, ?_⟩
  · simp only [runSession, hc, if_true]
    simp only [List.countP_cons, List.countP_append, hinner,
      teardown_countP_finalStop]
    split <;> simp [isFinalStop]
  · simp only [runSession, hc, if_true]
    simp only [List.countP_cons, List.countP_append, hinnerc,
      teardown_countP_close]
    split <;> simp [isClose]
  · obtain ⟨p, hp, hcl⟩ := teardown_shape sin.finalStopOk
    obtain ⟨sl, hsl⟩ := runSession_connected_shape st sin hc
    refine ⟨Act.connectAttempt :: (runInner st sin.ticks).2.1,
      p ++ sl, ?_, ?_⟩
    · rw [hsl, hp]
      simp
    · exact List.mem_append.2 (Or.inl hcl)

/-- Witness for C2: a concrete connected session whose final stop-send
fails still attempts it exactly once and still closes the socket. -/
theorem session_teardown_single_stop_witness :
    ((runSession initialState
        { connectOk := true, connectExc := .transport, ticks := [],
          finalStopOk := false }).2.countP isFinalStop = 1) ∧
    ((runSession initialState
        { connectOk := true, connectExc := .transport, ticks := [],
          finalStopOk := false }).2.countP isClose = 1) :=
  ⟨(session_teardown_single_stop initialState _ rfl).1,
   (session_teardown_single_stop initialState _ rfl).2.1⟩

/-- C4: transport errors (line 167: `socket.timeout`,
`ConnectionRefusedError`, `ConnectionResetError`, `BrokenPipeError`)
are recoverable — the handler leaves `running` as it was, and a retry
sleep is scheduled when `running` is still set — while any other
exception clears `running` (line 171) so that, after the final
stop-send and close, the outer loop performs nothing further. -/
theorem error_classification (st : LoopState) (sin : SessionInput)
    (rest : List SessionInput) (hr : st.running = true) :
    (sin.connectOk = false → sin.connectExc = .transport →
       (runSession st sin).1.running = true ∧
       Act.sleepRetry 5 ∈ (runSession st sin).2) ∧
    (sin.connectOk = false → sin.connectExc = .fatal →
       (runSession st sin).1.running = false ∧
       (run_network_client st (sin :: rest)).2 = (runSession st sin).2) ∧
    (sin.connectOk = true →
       (runInner st sin.ticks).2.2 = .raised .transport →
       (runSession st sin).1.running = (runInner st sin.ticks).1.running ∧
       ((runInner st sin.ticks).1.running = true →
         Act.sleepRetry 5 ∈ (runSession st sin).2)) ∧
    (sin.connectOk = true → (runInner st sin.ticks).2.2 = .raised .fatal →
       (runSession st sin).1.running = false ∧
       Act.finalStopSend sin.finalStopOk ∈ (runSession st sin).2 ∧
       Act.closeSocket ∈ (runSession st sin).2 ∧
       (run_network_client st (sin :: rest)).2 = (runSession st sin).2) := by
  refine ⟨?_, ?_, ?_, ?_⟩
  · intro h1 h2
    rw [runSession_failed_transport st sin hr h1 h2]
    exact ⟨hr, by simp⟩
  · intro h1 h2
    have hs : runSession st sin =
        ({ st with running := false },
         [Act.connectAttempt, Act.finalStopSend false, Act.closeSocket]) := by
      simp [runSession, h1, h2, teardown]
    have hnr := run_network_client_not_running
      (runSession st sin).1 rest (by rw [hs])
    constructor
    · rw [hs]
    · simp only [run_network_client, hr, if_true]
      rw [hnr]
      simp
  · intro h1 h2
    simp only [runSession, h1, if_true, h2]
    constructor
    · trivial
    · intro h3
      simp [h3, teardown]
  · intro h1 h2
    have hs1 : (runSession st sin).1.running = false := by
      simp [runSession, h1, h2]
    have hnr := run_network_client_not_running (runSession st sin).1 rest hs1
    refine ⟨hs1, ?_, ?_, ?_⟩
    · simp only [runSession, h1, if_true, h2]
      obtain ⟨p, hp, _⟩ := teardown_shape sin.finalStopOk
      simp [hp]
    · simp only [runSession, h1, if_true, h2]
      obtain ⟨p, hp, hcl⟩ := teardown_shape sin.finalStopOk
      simp [hp, hcl]
    · simp only [run_network_client, hr, if_true]
      rw [hnr]
      simp

/-- Witness for C4: a concrete session whose connect fails with an
unexpected (non-transport) exception leaves the loop stopped. -/
theorem error_classification_witness :
    (runSession initialState
      { connectOk := false, connectExc := .fatal, ticks := [],
        finalStopOk := false }).1.running = false :=
  ((error_classification initialState
    { connectOk := false, connectExc := .fatal, ticks := [],
      finalStopOk := false } [] rfl).2.1 rfl rfl).1

/-- C9 (amended): a shutdown signal processed during a tick's event
handling stops the loop, but only after the tick in progress completes:
the whole remaining inner-loop trace is exactly that tick's own actions
(no later tick runs), and that tick contributes at most one command
send, one render and one cadence wait.  The original claim — that no
send, render or cadence wait at all occurs after the signal — fails on
the code, because event handling (lines 100-119) precedes the send
(line 130), the drawing (lines 133-164) and `clock.tick` (line 165)
within the same iteration. -/
theorem shutdown_current_tick_only (st : LoopState) (inp : TickInput)
    (rest : List TickInput) (hr : st.running = true)
    (hq : (processEvents st inp.events).running = false) :
    (runInner st (inp :: rest)).2.1 = (runTick st inp).2.1 ∧
    (runTick st inp).2.1.countP isWire ≤ 1 ∧
    (runTick st inp).2.1.countP isRender ≤ 1 ∧
    (runTick st inp).2.1.countP isWait ≤ 1 := by
  have hst : (runTick st inp).1.running = false := by
    rw [runTick_state]
    exact hq
  refine ⟨?_, ?_, ?_, ?_⟩
  · simp only [runInner, hr, if_true]
    split
    · rfl
    · have h2 := runInner_not_running (runTick st inp).1 rest hst
      simp [h2.2]
  all_goals
    rcases inp with ⟨es, ks, sr⟩
  all_goals
    rcases sr with _ | k <;>
      simp [runTick, isWire, isRender, isWait, List.countP_cons]

/-- Counterexample to C9 as stated: in a concrete connected run, the
iteration that receives the quit event (setting `running` to `False`
before anything is sent) still sends one command, renders once and
waits once — all after the shutdown signal was received. -/
theorem shutdown_signal_counterexample :
    (processEvents
      { running := true, current_speed := 1/2, is_sending := false }
      [PyEvent.quit]).running = false ∧
    (runInner
      { running := true, current_speed := 1/2, is_sending := false }
      [{ events := [PyEvent.quit], keys := ⟨false, false, false, false⟩,
         sendResult := none }]).2.1 =
      [Act.wireSend stop_command, Act.render, Act.tickWait] :=
  ⟨rfl, rfl⟩

/-- Witness for C9's amended theorem: in a concrete run whose first
tick processes the quit event, the whole remaining inner-loop trace is
that tick's own trace; a queued second tick never runs. -/
theorem shutdown_current_tick_only_witness :
    (runInner { running := true, current_speed := 1/2, is_sending := false }
      [{ events := [PyEvent.quit], keys := ⟨false, false, false, false⟩,
         sendResult := none },
       { events := [], keys := ⟨false, false, false, false⟩,
         sendResult := none }]).2.1 =
    (runTick { running := true, current_speed := 1/2, is_sending := false }
      { events := [PyEvent.quit], keys := ⟨false, false, false, false⟩,
        sendResult := none }).2.1 :=
  (shutdown_current_tick_only
    { running := true, current_speed := 1/2, is_sending := false }
    { events := [PyEvent.quit], keys := ⟨false, false, false, false⟩,
      sendResult := none }
    [{ events := [], keys := ⟨false, false, false, false⟩,
       sendResult := none }] rfl rfl).1

/-- C3: when the first two connect attempts fail with transport errors
and the third succeeds, the retry loop makes exactly 3 connect
attempts, consecutive attempts are at least the 5-second retry delay
apart (time is lower-bounded by counting only the `time.sleep(5)` of
line 183), and nothing is placed on the wire before the third attempt
(the teardown send after a failed connect uses an unconnected socket
and cannot reach the wire). -/
theorem reconnect_three_attempts (st : LoopState) (s1 s2 s3 : SessionInput)
    (hr : st.running = true)
    (h1 : s1.connectOk = false) (h1k : s1.connectExc = .transport)
    (h2 : s2.connectOk = false) (h2k : s2.connectExc = .transport)
    (h3 : s3.connectOk = true) :
    ((run_network_client st [s1, s2, s3]).2.countP isConnect = 3) ∧
    connectTimes 0 (run_network_client st [s1, s2, s3]).2 = [0, 5, 10] ∧
    List.Chain' (fun a b => a + 5 ≤ b)
      (connectTimes 0 (run_network_client st [s1, s2, s3]).2) ∧
    ∃ pre post,
      (run_network_client st [s1, s2, s3]).2 =
        pre ++ Act.connectAttempt :: post ∧
      pre.countP isConnect = 2 ∧ pre.countP isWire = 0 := by
  obtain ⟨tail, htail, hnc⟩ := runSession_connected_tail st s3 h3
  have hc0 : tail.countP isConnect = 0 :=
    List.countP_eq_zero.2 fun a ha => by simp [hnc a ha]
  have hct : ∀ t, connectTimes t tail = [] :=
    fun t => connectTimes_no_connect tail t hnc
  have htr : (run_network_client st [s1, s2, s3]).2 =
      Act.connectAttempt :: Act.finalStopSend false :: Act.closeSocket ::
      Act.sleepRetry 5 :: Act.connectAttempt :: Act.finalStopSend false ::
      Act.closeSocket :: Act.sleepRetry 5 :: Act.connectAttempt :: tail := by
    simp [run_network_client, hr,
      runSession_failed_transport st s1 hr h1 h1k,
      runSession_failed_transport st s2 hr h2 h2k, htail]
  have htimes : connectTimes 0 (run_network_client st [s1, s2, s3]).2 =
      [0, 5, 10] := by
    rw [htr]
    simp [connectTimes, hct]
    norm_num
  refine ⟨?_, htimes, ?_, ?_⟩
  · rw [htr]
    simp [List.countP_cons, isConnect, hc0]
  · rw [htimes]
    norm_num [List.chain'_cons, List.chain'_singleton]
  · refine ⟨[Act.connectAttempt, Act.finalStopSend false, Act.closeSocket,
      Act.sleepRetry 5, Act.connectAttempt, Act.finalStopSend false,
      Act.closeSocket, Act.sleepRetry 5], tail, ?_, ?_, ?_⟩
    · rw [htr]
      rfl
    · rfl
    · rfl

/-- Witness for C3: the concrete fail-fail-succeed scenario from the
initial state makes exactly three connect attempts at model times
0, 5 and 10. -/
theorem reconnect_three_attempts_witness :
    ((run_network_client initialState
      [{ connectOk := false, connectExc := .transport, ticks := [],
         finalStopOk := false },
       { connectOk := false, connectExc := .transport, ticks := [],
         finalStopOk := false },
       { connectOk := true, connectExc := .transport, ticks := [],
         finalStopOk := true }]).2.countP isConnect = 3) ∧
    connectTimes 0 (run_network_client initialState
      [{ connectOk := false, connectExc := .transport, ticks := [],
         finalStopOk := false },
       { connectOk := false, connectExc := .transport, ticks := [],
         finalStopOk := false },
       { connectOk := true, connectExc := .transport, ticks := [],
         finalStopOk := true }]).2 = [0, 5, 10] := by
  have h := reconnect_three_attempts initialState
    { connectOk := false, connectExc := .transport, ticks := [],
      finalStopOk := false }
    { connectOk := false, connectExc := .transport, ticks := [],
      finalStopOk := false }
    { connectOk := true, connectExc := .transport, ticks := [],
      finalStopOk := true } rfl rfl rfl rfl rfl rfl
  exact ⟨h.1, h.2.1⟩

/-- C6: for diagonal intent `(1,1)` (forward and right held), after the
`0.7071` diagonal scaling, tank mixing, normalization and speed
scaling, neither wheel's power magnitude exceeds `MAX_MOTOR_POWER`,
for every speed in `[0, 1]`. -/
theorem mixer_diagonal_bounded (s : ℚ) (h0 : 0 ≤ s) (h1 : s ≤ 1) :
    |(get_keyboard_inputs_from_pygame ⟨true, false, false, true⟩ s).front_left| ≤
      MAX_MOTOR_POWER ∧
    |(get_keyboard_inputs_from_pygame ⟨true, false, false, true⟩ s).back_left| ≤
      MAX_MOTOR_POWER ∧
    |(get_keyboard_inputs_from_pygame ⟨true, false, false, true⟩ s).front_right| ≤
      MAX_MOTOR_POWER ∧
    |(get_keyboard_inputs_from_pygame ⟨true, false, false, true⟩ s).back_right| ≤
      MAX_MOTOR_POWER := by
  have hpos : (0:ℚ) ≤ s * 255 := by positivity
  have hcmd : get_keyboard_inputs_from_pygame ⟨true, false, false, true⟩ s =
      { front_left := 0, back_left := 0, front_right := ⌊s * 255⌋,
        back_right := ⌊s * 255⌋, active := true } := by
    simp only [get_keyboard_inputs_from_pygame, MAX_MOTOR_POWER]
    norm_num [pyTrunc, hpos, abs_of_nonneg]
  have hge : (0:ℤ) ≤ ⌊s * 255⌋ := Int.floor_nonneg.2 hpos
  have hle : ⌊s * 255⌋ ≤ 255 := by
    calc ⌊s * 255⌋ ≤ ⌊(255:ℚ)⌋ := Int.floor_le_floor (by nlinarith)
    _ = 255 := by norm_num
  rw [hcmd]
  refine ⟨by norm_num [MAX_MOTOR_POWER], by norm_num [MAX_MOTOR_POWER],
    ?_, ?_⟩ <;>
    · show |⌊s * 255⌋| ≤ MAX_MOTOR_POWER
      rw [abs_of_nonneg hge]
      exact hle.trans_eq rfl

/-- Witness for C6: at full speed `1.0` the diagonal command's powers
are within the bound. -/
theorem mixer_diagonal_bounded_witness :
    |(get_keyboard_inputs_from_pygame ⟨true, false, false, true⟩ 1).front_left| ≤
      MAX_MOTOR_POWER ∧
    |(get_keyboard_inputs_from_pygame ⟨true, false, false, true⟩ 1).back_left| ≤
      MAX_MOTOR_POWER ∧
    |(get_keyboard_inputs_from_pygame ⟨true, false, false, true⟩ 1).front_right| ≤
      MAX_MOTOR_POWER ∧
    |(get_keyboard_inputs_from_pygame ⟨true, false, false, true⟩ 1).back_right| ≤
      MAX_MOTOR_POWER :=
  mixer_diagonal_bounded 1 (by norm_num) (by norm_num)
